import Mathlib

/-!
Verification development for the Swin-style vision transformer in
`models/swin_transformer.py`.  Tensor-level code is embedded shallowly:
mask construction and indexing arithmetic are modelled exactly (Python
slice semantics included), shapes are modelled as natural-number tuples
with `Option` for shape-mismatch failure, and the cyclic roll is modelled
as an index permutation on `Fin h × Fin w`.
-/

set_option linter.unusedVariables false

namespace SwinVerify

/-- Values that can appear in the float mask built by `create_mask`:
`0.0`, `1.0`, or `-inf`. -/
inductive MaskVal
  | zero
  | one
  | ninf
  deriving DecidableEq, Repr

/-- The Python comparison `mask > 0` applied entrywise: only `1.0 > 0` holds. -/
def MaskVal.gtZero : MaskVal → Bool
  | .one => true
  | _ => false

/-- Entry `(i, j)` of the `window_size² × window_size²` tensor returned by
`create_mask(window_size, displacement, upper_lower, left_right)`.
The slice `[-k:]` with `k = displacement * window_size > 0` covers indices
`≥ n - k`, `[:-k]` covers indices `< n - k`; for `k = 0` the assignments
touch nothing (`[-0:]` is everything but `[:-0]` is empty).  The
`left_right` branch reshapes to `(w, w, w, w)`, so the second and fourth
axes are the flat indices modulo `window_size`; it writes `-inf`.
Faithful for `displacement < window_size`, which both call sites
(`displacement = window_size // 2`) satisfy. -/
def create_mask (window_size displacement : ℕ) (upper_lower left_right : Bool)
    (i j : ℕ) : MaskVal :=
  let n := window_size * window_size
  let k := displacement * window_size
  let ul : MaskVal :=
    if upper_lower = true ∧ k ≠ 0 ∧
        ((n - k ≤ i ∧ j < n - k) ∨ (i < n - k ∧ n - k ≤ j))
    then .one else .zero
  if left_right = true ∧ displacement ≠ 0 ∧
      ((window_size - displacement ≤ i % window_size ∧
        j % window_size < window_size - displacement) ∨
       (i % window_size < window_size - displacement ∧
        window_size - displacement ≤ j % window_size))
  then .ninf else ul

/-- The registered buffer `ul_mask = create_mask(window_size, window_size // 2,
True, False) > 0`. -/
def ul_mask (window_size i j : ℕ) : Bool :=
  (create_mask window_size (window_size / 2) true false i j).gtZero

/-- The registered buffer `lr_mask = create_mask(window_size, window_size // 2,
False, True) > 0`. -/
def lr_mask (window_size i j : ℕ) : Bool :=
  (create_mask window_size (window_size / 2) false true i j).gtZero

/-- Whether the forward pass of a shifted `MultiHeadedLocalAttention` masks
score entry `(i, j)` of window `s` (windows flattened row-major over an
`h_stride × w_stride` grid): `score[:, :, -w_stride:]` gets `ul_mask` and
`score[:, :, w_stride - 1 :: w_stride]` gets `lr_mask`. -/
def appliedShiftMask (window_size h_stride w_stride s i j : ℕ) : Bool :=
  (decide (h_stride * w_stride - w_stride ≤ s) && ul_mask window_size i j) ||
  (decide (s % w_stride = w_stride - 1) && lr_mask window_size i j)

/-- Modelled from the spec: the vertical wrap-around pairs of a window, pairs
of flat positions on opposite sides of the boundary between the first
`window_size - displacement` rows and the last `displacement` rows (flat
boundary at `window_size² - displacement * window_size`). -/
def vertical_wrap_spec (window_size displacement i j : ℕ) : Bool :=
  let n := window_size * window_size
  let k := displacement * window_size
  (decide (n - k ≤ i) && decide (j < n - k)) ||
  (decide (i < n - k) && decide (n - k ≤ j))

/-- Modelled from the spec: the horizontal wrap-around pairs of a window,
pairs of positions whose column indices lie on opposite sides of the
boundary between the first `window_size - displacement` columns and the
last `displacement` columns. -/
def horizontal_wrap_spec (window_size displacement i j : ℕ) : Bool :=
  (decide (window_size - displacement ≤ i % window_size) &&
   decide (j % window_size < window_size - displacement)) ||
  (decide (i % window_size < window_size - displacement) &&
   decide (window_size - displacement ≤ j % window_size))

/-- `get_relative_distances(window_size)` ignores its argument and builds
`indices = cartesian_prod(arange(7), arange(7))`;
`distances[a][b] = indices[b] - indices[a]` as a `(dy, dx)` pair of the
flat positions `a, b < 49` decoded base 7. -/
def get_relative_distances (window_size a b : ℕ) : ℤ × ℤ :=
  (((b / 7 : ℕ) : ℤ) - ((a / 7 : ℕ) : ℤ), ((b % 7 : ℕ) : ℤ) - ((a % 7 : ℕ) : ℤ))

/-- The index stored in the `pos` buffer:
`pos = get_relative_distances(window_size) + window_size - 1` followed by
`pos_y * (2 * window_size - 1) + pos_x`. -/
def pos_index (window_size a b : ℕ) : ℤ :=
  let d := get_relative_distances window_size a b
  (d.1 + (window_size : ℤ) - 1) * (2 * (window_size : ℤ) - 1) +
    (d.2 + (window_size : ℤ) - 1)

/-- Whether every entry of the `pos` buffer is a legal index into the
`nn.Embedding((2 * window_size - 1)², n_head)` table `rel_pos`. -/
def pos_index_in_range (window_size : ℕ) : Bool :=
  (List.range 49).all fun a => (List.range 49).all fun b =>
    decide (0 ≤ pos_index window_size a b) &&
    decide (pos_index window_size a b < (((2 * window_size - 1) ^ 2 : ℕ) : ℤ))

/-- One layer appended by `SwinTransformer.make_block`: a `PatchEmbedding`
followed by `depth` `TransformerLayer`s. -/
inductive StageLayer
  | patchEmbed (in_dim out_dim reduction : ℕ)
  | transformer (shift : Bool)
  deriving DecidableEq, Repr

/-- The module list built by `SwinTransformer.make_block`: a `PatchEmbedding`
then, for `i` in `range(depth)`, a `TransformerLayer` with
`shift = (i % 2 == 0)`. -/
def make_block (depth in_dim dim reduction : ℕ) : List StageLayer :=
  .patchEmbed in_dim dim reduction ::
    (List.range depth).map fun i => .transformer (decide (i % 2 = 0))

/-- The `shift` flag of the `i`-th `TransformerLayer` of a stage (position
`i + 1` of the module list, after the `PatchEmbedding`). -/
def blockTransformerShift (depth in_dim dim reduction i : ℕ) : Option Bool :=
  match (make_block depth in_dim dim reduction).get? (i + 1) with
  | some (.transformer s) => some s
  | _ => none

/-- A `TransformerLayer` viewed through its sub-modules as functions on the
value type `V`: the two `LayerNorm`s, the attention, the shared `DropPath`,
and the feed-forward block. -/
structure TransformerLayer (V : Type) where
  norm_attn : V → V
  attn : V → V
  drop_path : V → V
  norm_ff : V → V
  ff : V → V

/-- `TransformerLayer.forward`:
`out = input + drop_path(attn(norm_attn(input)))` then
`out = out + drop_path(ff(norm_ff(out)))`. -/
def TransformerLayer.forward {V : Type} [Add V] (L : TransformerLayer V)
    (input : V) : V :=
  let out := input + L.drop_path (L.attn (L.norm_attn input))
  out + L.drop_path (L.ff (L.norm_ff out))

/-- The mutable state of a `DropPath` module: its drop probability `p`.
Modelled from the spec: the stochastic-depth rate is a per-layer scalar
probability, mutable after construction (`DropPath` itself lives in the
sibling `layer` module). -/
structure DropPath where
  p : ℚ
  deriving DecidableEq, Repr

/-- The parameters and buffers of a `MultiHeadedLocalAttention` module,
listed abstractly: projection weights, output projection, the two shift
mask buffers, the `pos` index buffer and the `rel_pos` bias table. -/
structure AttentionParams where
  weight : List ℚ
  linear_weight : List ℚ
  linear_bias : List ℚ
  ul_mask_buf : List Bool
  lr_mask_buf : List Bool
  pos_buf : List ℤ
  rel_pos_table : List ℚ
  deriving DecidableEq, Repr

/-- The full parameter state of a `TransformerLayer`: normalization
parameters, attention parameters, the `DropPath` state, and the
feed-forward parameters. -/
structure TransformerLayerParams where
  norm_attn_weight : List ℚ
  norm_attn_bias : List ℚ
  attn : AttentionParams
  drop_path : DropPath
  norm_ff_weight : List ℚ
  norm_ff_bias : List ℚ
  ff_weight1 : List ℚ
  ff_bias1 : List ℚ
  ff_weight2 : List ℚ
  ff_bias2 : List ℚ
  deriving DecidableEq, Repr

/-- `TransformerLayer.set_drop_path(p)`: the single assignment
`self.drop_path.p = p`. -/
def set_drop_path (L : TransformerLayerParams) (p : ℚ) : TransformerLayerParams :=
  { L with drop_path := { L.drop_path with p := p } }

/-- The index permutation of `torch.roll` along one axis of length `n`:
output position `i` reads input position `(i - s) mod n`. -/
def roll_index (n : ℕ) (s : ℤ) (i : Fin n) : Fin n :=
  ⟨((((i : ℕ) : ℤ) - s) % (n : ℤ)).toNat, by
    have hn : 0 < (n : ℤ) := by exact_mod_cast i.pos
    have h1 : 0 ≤ (((i : ℕ) : ℤ) - s) % (n : ℤ) :=
      Int.emod_nonneg _ (by omega)
    have h2 : (((i : ℕ) : ℤ) - s) % (n : ℤ) < (n : ℤ) :=
      Int.emod_lt_of_pos _ hn
    omega⟩

/-- `torch.roll(input, (s, s), (1, 2))` on one batch slice: the same cyclic
shift `s` applied to both spatial axes. -/
def torch_roll2 {h w : ℕ} {α : Type} (s : ℤ) (x : Fin h → Fin w → α) :
    Fin h → Fin w → α :=
  fun i j => x (roll_index h s i) (roll_index w s j)

/-- The shape `(batch, d1, d2, d3)` of a rank-4 tensor. -/
abbrev Shape4 := ℕ × ℕ × ℕ × ℕ

/-- Shape behaviour of `patchify(input, size)`:
`view(batch, height // size, size, width // size, size, dim)` requires the
element counts to agree (and `size ≠ 0`, else the Python division raises),
the permute keeps the count, and `reshape(batch, h', w', -1)` needs the
known dimensions to have nonzero product to infer `-1`.  On success the
shape is `(batch, height / size, width / size, size * size * dim)`. -/
def patchify_shape (size : ℕ) : Shape4 → Option Shape4 :=
  fun (b, height, width, dim) =>
    if size ≠ 0 ∧
        b * (height / size) * size * (width / size) * size * dim
          = b * height * width * dim ∧
        b * (height / size) * (width / size) ≠ 0
    then some (b, height / size, width / size, size * size * dim)
    else none

/-- Shape behaviour of `nn.Linear(in_features, out_features)` on a rank-4
input: the last dimension must equal `in_features`. -/
def linear_shape (in_features out_features : ℕ) : Shape4 → Option Shape4 :=
  fun (b, h, w, d) => if d = in_features then some (b, h, w, out_features) else none

/-- Shape behaviour of `nn.LayerNorm(dim)`: the last dimension must equal
`dim`; the shape is unchanged. -/
def layer_norm_shape (dim : ℕ) : Shape4 → Option Shape4 :=
  fun (b, h, w, d) => if d = dim then some (b, h, w, d) else none

/-- Shape behaviour of `PatchEmbedding.forward`: `patchify`, then
`nn.Linear(in_dim * window_size * window_size, out_dim)`, then
`nn.LayerNorm(out_dim)`. -/
def patch_embedding_shape (in_dim out_dim window_size : ℕ) (sh : Shape4) :
    Option Shape4 :=
  ((patchify_shape window_size sh).bind
      (linear_shape (in_dim * window_size * window_size) out_dim)).bind
    (layer_norm_shape out_dim)

/-- Shape behaviour of `MultiHeadedLocalAttention.forward` on
`(b, height, width, d)`: the projection `weight` needs `d = dim`; the
window `reshape` needs the element counts of
`(b, h_stride, window, w_stride, window, n_head, dim_head)` and
`(b, height, width, n_head * dim_head)` to agree, with nonzero known
product for the `-1` of the second reshape; `rel_pos(self.pos)` has
`49 * 49 * n_head` entries and is reshaped to
`(1, n_head, 1, window², window²)`; every `pos` entry must index into the
`(2 * window_size - 1)²`-row embedding table.  Output shape equals input
shape (the final `linear` maps `n_head * dim_head` back to `dim`). -/
def multi_headed_local_attention_shape (dim n_head dim_head window_size : ℕ) :
    Shape4 → Option Shape4 :=
  fun (b, height, width, d) =>
    if d = dim ∧ window_size ≠ 0 ∧
        b * (height / window_size) * window_size * (width / window_size) *
            window_size * (n_head * dim_head)
          = b * height * width * (n_head * dim_head) ∧
        b * n_head * (window_size * window_size) * dim_head ≠ 0 ∧
        49 * 49 * n_head
          = n_head * (window_size * window_size) * (window_size * window_size) ∧
        pos_index_in_range window_size = true
    then some (b, height, width, dim)
    else none

/-- Shape behaviour of `PositionwiseFeedForward(in_dim, dim)`:
`nn.Linear(in_dim, dim)`, activation, `nn.Linear(dim, in_dim)`, dropout. -/
def feed_forward_shape (in_dim dim : ℕ) (sh : Shape4) : Option Shape4 :=
  (linear_shape in_dim dim sh).bind (linear_shape dim in_dim)

/-- Shape behaviour of `TransformerLayer.forward`: pre-norm, attention,
residual add (shapes must agree), pre-norm, feed-forward, residual add. -/
def transformer_layer_shape (dim n_head dim_head dim_ff window_size : ℕ)
    (sh : Shape4) : Option Shape4 :=
  (layer_norm_shape dim sh).bind fun n1 =>
    (multi_headed_local_attention_shape dim n_head dim_head window_size n1).bind
      fun a =>
        if a = sh then
          (layer_norm_shape dim sh).bind fun n2 =>
            (feed_forward_shape dim dim_ff n2).bind fun f =>
              if f = sh then some sh else none
        else none

/-- Shape behaviour of one stage built by `SwinTransformer.make_block`: the
`PatchEmbedding` with patch size `reduction`, then `depth` identical
`TransformerLayer`s (the `shift` flag does not affect shapes). -/
def make_block_shape (depth in_dim dim n_head dim_head dim_ff window_size
    reduction : ℕ) (sh : Shape4) : Option Shape4 :=
  (patch_embedding_shape in_dim dim reduction sh).bind fun e =>
    (List.range depth).foldlM
      (fun s _ => transformer_layer_shape dim n_head dim_head dim_ff window_size s)
      e

/-- Shape behaviour of `nn.AdaptiveAvgPool2d(1)` on `(b, d, h, w)`: pools the
two trailing axes to `1 × 1` (empty spatial axes cannot be pooled). -/
def adaptive_avg_pool_shape : Shape4 → Option Shape4 :=
  fun (b, d, h, w) => if 0 < h ∧ 0 < w then some (b, d, 1, 1) else none

/-- Shape behaviour of `nn.Flatten(1)` on a rank-4 tensor. -/
def flatten_shape : Shape4 → Option (ℕ × ℕ) :=
  fun (b, d, h, w) => some (b, d * h * w)

/-- Shape behaviour of `nn.Linear` on a rank-2 input. -/
def linear2_shape (in_features out_features : ℕ) : ℕ × ℕ → Option (ℕ × ℕ) :=
  fun (b, d) => if d = in_features then some (b, out_features) else none

/-- The constructor arguments of `SwinTransformer` that determine shapes. -/
structure SwinConfig where
  image_size : ℕ × ℕ
  n_class : ℕ
  depths : ℕ × ℕ × ℕ × ℕ
  dims : ℕ × ℕ × ℕ × ℕ
  dim_head : ℕ
  n_heads : ℕ × ℕ × ℕ × ℕ
  dim_ffs : ℕ × ℕ × ℕ × ℕ
  window_size : ℕ

/-- Shape behaviour of `SwinTransformer.forward` on an input
`(b, c, h, w)`: permute to channels-last, the four stages (reductions 4,
2, 2, 2 with in-dims 3 and the previous stage widths), the final
`LayerNorm(dims[-1])`, permute back to channels-first, adaptive average
pool, flatten, and the classifier `nn.Linear(dims[-1], n_class)`. -/
def swin_transformer_shape (cfg : SwinConfig) : Shape4 → Option (ℕ × ℕ) :=
  fun (b, c, h, w) =>
    (make_block_shape cfg.depths.1 3 cfg.dims.1 cfg.n_heads.1 cfg.dim_head
        cfg.dim_ffs.1 cfg.window_size 4 (b, h, w, c)).bind fun s1 =>
      (make_block_shape cfg.depths.2.1 cfg.dims.1 cfg.dims.2.1 cfg.n_heads.2.1
          cfg.dim_head cfg.dim_ffs.2.1 cfg.window_size 2 s1).bind fun s2 =>
        (make_block_shape cfg.depths.2.2.1 cfg.dims.2.1 cfg.dims.2.2.1
            cfg.n_heads.2.2.1 cfg.dim_head cfg.dim_ffs.2.2.1 cfg.window_size 2
            s2).bind fun s3 =>
          (make_block_shape cfg.depths.2.2.2 cfg.dims.2.2.1 cfg.dims.2.2.2
              cfg.n_heads.2.2.2 cfg.dim_head cfg.dim_ffs.2.2.2 cfg.window_size 2
              s3).bind fun s4 =>
            (layer_norm_shape cfg.dims.2.2.2 s4).bind fun f =>
              match f with
              | (b4, h4, w4, d4) =>
                (adaptive_avg_pool_shape (b4, d4, h4, w4)).bind fun p =>
                  (flatten_shape p).bind
                    (linear2_shape cfg.dims.2.2.2 cfg.n_class)

/-- The end-to-end test configuration of the spec: `image_size = (224, 224)`,
`depths = (2, 2, 6, 2)`, `dims = (96, 192, 384, 768)`, `window_size = 7`,
`n_class = 1000`, with the head counts and feed-forward widths left free. -/
def swin224_config (n_heads : ℕ × ℕ × ℕ × ℕ) (dim_head : ℕ)
    (dim_ffs : ℕ × ℕ × ℕ × ℕ) : SwinConfig :=
  { image_size := (224, 224)
    n_class := 1000
    depths := (2, 2, 6, 2)
    dims := (96, 192, 384, 768)
    dim_head := dim_head
    n_heads := n_heads
    dim_ffs := dim_ffs
    window_size := 7 }

/-- The statistical origin of a parameter tensor after initialization:
`normalStd σ` stands for `nn.init.normal_(·, std = σ)`, `zeros` for
`nn.init.zeros_`, `ones` for `nn.init.ones_`. -/
inductive InitKind
  | normalStd (std : ℚ)
  | zeros
  | ones
  deriving DecidableEq, Repr

/-- The parameter slots of an `nn.Linear` (`bias = none` for
`bias=False`). -/
structure LinearParams where
  weight : InitKind
  bias : Option InitKind
  deriving DecidableEq, Repr

/-- A module as seen by `SwinTransformer.init_weights`, which dispatches on
`isinstance`: `nn.Linear`, `nn.LayerNorm`, `nn.Embedding` (the `rel_pos`
table), or anything else. -/
inductive ModuleParams
  | linear (p : LinearParams)
  | layerNorm (weight bias : InitKind)
  | embedding (weight : InitKind)
  | other
  deriving DecidableEq, Repr

/-- `SwinTransformer.init_weights(module)`: `nn.Linear` weights get
`normal_(std=0.02)` and existing biases get `zeros_`; `nn.LayerNorm` gets
`ones_`/`zeros_`; every other module is untouched. -/
def init_weights : ModuleParams → ModuleParams
  | .linear p =>
      .linear { weight := .normalStd (2 / 100), bias := p.bias.map fun _ => .zeros }
  | .layerNorm _ _ => .layerNorm .ones .zeros
  | m => m

/-- The classifier `nn.Linear(dims[-1], n_class)` as `SwinTransformer.__init__`
leaves it just before `self.apply(self.init_weights)`:
`nn.init.normal_(linear.weight, std=0.01)` and `nn.init.zeros_(linear.bias)`
have already run. -/
def classifier_linear_before_apply : ModuleParams :=
  .linear { weight := .normalStd (1 / 100), bias := some .zeros }

/-- The `rel_pos` embedding as `MultiHeadedLocalAttention.__init__` leaves it:
`self.rel_pos.weight.detach().zero_()`. -/
def rel_pos_before_apply : ModuleParams :=
  .embedding .zeros

/-- The classifier linear after `SwinTransformer.__init__` finishes:
`self.apply(self.init_weights)` (line 265) visits every submodule,
including the classifier, after the `std=0.01` initialization. -/
def classifier_linear_after_init : ModuleParams :=
  init_weights classifier_linear_before_apply

/-- The `rel_pos` embedding after `SwinTransformer.__init__` finishes. -/
def rel_pos_after_init : ModuleParams :=
  init_weights rel_pos_before_apply

lemma lr_mask_eq_false (w i j : ℕ) : lr_mask w i j = false := by
  unfold lr_mask create_mask
  split
  · rfl
  · simp [MaskVal.gtZero]

lemma ul_mask_diag (w i : ℕ) : ul_mask w i i = false := by
  unfold ul_mask create_mask
  split
  · simp_all
  · show (if true = true ∧ w / 2 * w ≠ 0 ∧
        (w * w - w / 2 * w ≤ i ∧ i < w * w - w / 2 * w ∨
         i < w * w - w / 2 * w ∧ w * w - w / 2 * w ≤ i)
      then MaskVal.one else MaskVal.zero).gtZero = false
    rw [if_neg]
    · rfl
    · rintro ⟨-, -, h | h⟩ <;> omega

lemma appliedShiftMask_diag (w hs ws s i : ℕ) :
    appliedShiftMask w hs ws s i i = false := by
  simp [appliedShiftMask, ul_mask_diag, lr_mask_eq_false]

/-- C9: in every shifted attention layer, no pre-softmax score row is fully
masked: for every window `s` of the `h_stride × w_stride` grid and every
query position `i`, some key position `j` (the diagonal one) is left
unmasked by the combination of `ul_mask` and `lr_mask` applied in the
forward pass, so every softmax row keeps a finite entry. -/
theorem shifted_row_keeps_unmasked_entry (window_size h_stride w_stride s i : ℕ)
    (hi : i < window_size * window_size) :
    ∃ j, j < window_size * window_size ∧
      appliedShiftMask window_size h_stride w_stride s i j = false :=
  ⟨i, hi, appliedShiftMask_diag window_size h_stride w_stride s i⟩

/-- Witness for the C9 theorem at `window_size = 4`, a `2 × 2` window grid,
window `3`, query row `5`. -/
theorem shifted_row_keeps_unmasked_entry_witness :
    5 < 4 * 4 ∧ ∃ j, j < 4 * 4 ∧ appliedShiftMask 4 2 2 3 5 j = false :=
  ⟨by decide, shifted_row_keeps_unmasked_entry 4 2 2 3 5 (by decide)⟩

/-- C1: for `window_size = 4`, `displacement = 2`, the vertical-wrap buffer
`ul_mask` marks exactly the documented wrap pairs, but the horizontal-wrap
buffer `lr_mask` is identically `false` — `create_mask` writes `-inf`
(not `1`) in its `left_right` branch, e.g. at entry `(2, 0)`, and the
caller converts with `> 0`, so the horizontal wrap pair `(2, 0)` (and every
other one) is never masked, contradicting the claim. -/
theorem lr_mask_is_vacuous :
    ((List.range 16).all fun i => (List.range 16).all fun j =>
      ul_mask 4 i j == vertical_wrap_spec 4 2 i j) = true ∧
    ((List.range 16).all fun i => (List.range 16).all fun j =>
      lr_mask 4 i j == false) = true ∧
    horizontal_wrap_spec 4 2 2 0 = true ∧
    create_mask 4 2 false true 2 0 = MaskVal.ninf := by decide

/-- C2: `get_relative_distances` hard-codes `arange(7)` and ignores its
`window_size` argument.  For `window_size = 4` the pair of flat positions
`(0, 48)` decodes to offset `(6, 6)` and yields `pos` entry `72`, which is
out of range for the `(2·4−1)² = 49`-row `rel_pos` table, and the
`49·49`-entry bias cannot be reshaped to the `16·16` score grid. -/
theorem relative_distances_hardcode_seven :
    get_relative_distances 4 0 48 = (6, 6) ∧
    pos_index 4 0 48 = 72 ∧
    ¬ ((72 : ℤ) < (((2 * 4 - 1) ^ 2 : ℕ) : ℤ)) ∧
    pos_index_in_range 4 = false ∧
    ¬ (49 * 49 = (4 * 4) * (4 * 4)) := by decide

/-- C3 counterexample: the first transformer layer of a stage (index 0, an
even index) is built with `shift = (0 % 2 == 0) = True`, not unshifted as
the claim states. -/
theorem first_stage_layer_is_shifted :
    blockTransformerShift 2 3 96 4 0 = some true ∧
    blockTransformerShift 2 3 96 4 0 ≠ some false := by decide

/-- C3 as amended: within a stage the transformer layers strictly alternate
starting from shifted — the layer at index `i` has
`shift = (i % 2 == 0)`, so even-indexed layers are shifted and odd-indexed
layers are unshifted. -/
theorem block_alternation_starts_shifted (depth in_dim dim reduction i : ℕ)
    (h : i < depth) :
    blockTransformerShift depth in_dim dim reduction i
      = some (decide (i % 2 = 0)) := by
  unfold blockTransformerShift make_block
  simp [List.getElem?_map, List.getElem?_range, h]

/-- Witness for the amended C3 theorem at `depth = 2`, layer index 1. -/
theorem block_alternation_starts_shifted_witness :
    1 < 2 ∧ blockTransformerShift 2 3 96 4 1 = some (decide (1 % 2 = 0)) :=
  ⟨by decide, block_alternation_starts_shifted 2 3 96 4 1 (by decide)⟩

/-- C4: `self.apply(self.init_weights)` runs after the classifier's
`normal_(std=0.01)` initialization and, matching on `nn.Linear`,
re-initializes the classifier weight with `std = 0.02`; the final state
therefore violates the claimed `Normal(0, 0.01)` exception (the `rel_pos`
embedding is untouched by `init_weights` and stays zero). -/
theorem classifier_std_overwritten :
    classifier_linear_after_init
      = .linear { weight := .normalStd (2 / 100), bias := some .zeros } ∧
    InitKind.normalStd (2 / 100) ≠ InitKind.normalStd (1 / 100) ∧
    rel_pos_after_init = .embedding .zeros :=
  ⟨rfl, by simp; norm_num, rfl⟩

/-- C5: `TransformerLayer.forward` computes
`out = input + drop_path(attn(norm_attn(input)))` followed by
`out = out + drop_path(ff(norm_ff(out)))`, with the distinct
normalizations `norm_attn` and `norm_ff` preceding their sub-blocks. -/
theorem transformer_layer_forward_contract {V : Type} [Add V]
    (L : TransformerLayer V) (input : V) :
    L.forward input
      = (input + L.drop_path (L.attn (L.norm_attn input)))
          + L.drop_path (L.ff (L.norm_ff
              (input + L.drop_path (L.attn (L.norm_attn input))))) := rfl

/-- C10: `set_drop_path` changes only the `DropPath` probability; every
other parameter, buffer and submodule of the layer is unchanged. -/
theorem set_drop_path_frame (L : TransformerLayerParams) (p : ℚ) :
    (set_drop_path L p).drop_path.p = p ∧
    (set_drop_path L p).norm_attn_weight = L.norm_attn_weight ∧
    (set_drop_path L p).norm_attn_bias = L.norm_attn_bias ∧
    (set_drop_path L p).attn = L.attn ∧
    (set_drop_path L p).norm_ff_weight = L.norm_ff_weight ∧
    (set_drop_path L p).norm_ff_bias = L.norm_ff_bias ∧
    (set_drop_path L p).ff_weight1 = L.ff_weight1 ∧
    (set_drop_path L p).ff_bias1 = L.ff_bias1 ∧
    (set_drop_path L p).ff_weight2 = L.ff_weight2 ∧
    (set_drop_path L p).ff_bias2 = L.ff_bias2 :=
  ⟨rfl, rfl, rfl, rfl, rfl, rfl, rfl, rfl, rfl, rfl⟩

lemma roll_index_cancel (n : ℕ) (s : ℤ) (i : Fin n) :
    roll_index n (-s) (roll_index n s i) = i := by
  apply Fin.ext
  have hn : 0 < (n : ℤ) := by exact_mod_cast i.pos
  have h1 : 0 ≤ (((i : ℕ) : ℤ) - s) % (n : ℤ) := Int.emod_nonneg _ (by omega)
  simp only [roll_index, Int.toNat_of_nonneg h1, sub_neg_eq_add]
  have h2 : ((((i : ℕ) : ℤ) - s) % (n : ℤ) + s) % (n : ℤ) = ((i : ℕ) : ℤ) := by
    conv_lhs => rw [Int.add_emod, Int.emod_emod_of_dvd _ dvd_rfl, ← Int.add_emod]
    rw [sub_add_cancel]
    exact Int.emod_eq_of_lt (by positivity) (by exact_mod_cast i.isLt)
  rw [h2]
  simp

lemma patch_embedding_shape_some (in_dim out_dim r b H W : ℕ)
    (h1 : r ∣ H) (h2 : r ∣ W) (hr : r ≠ 0) (hnz : b * (H / r) * (W / r) ≠ 0) :
    patch_embedding_shape in_dim out_dim r (b, H, W, in_dim)
      = some (b, H / r, W / r, out_dim) := by
  have hA : H / r * r = H := Nat.div_mul_cancel h1
  have hB : W / r * r = W := Nat.div_mul_cancel h2
  have heq : b * (H / r) * r * (W / r) * r * in_dim = b * H * W * in_dim := by
    calc b * (H / r) * r * (W / r) * r * in_dim
        = b * (H / r * r) * (W / r * r) * in_dim := by ring
      _ = b * H * W * in_dim := by rw [hA, hB]
  have hp : patchify_shape r (b, H, W, in_dim)
      = some (b, H / r, W / r, r * r * in_dim) := by
    unfold patchify_shape
    exact if_pos ⟨hr, heq, hnz⟩
  have hl : linear_shape (in_dim * r * r) out_dim (b, H / r, W / r, r * r * in_dim)
      = some (b, H / r, W / r, out_dim) := by
    unfold linear_shape
    exact if_pos (by ring)
  have hn : layer_norm_shape out_dim (b, H / r, W / r, out_dim)
      = some (b, H / r, W / r, out_dim) := by
    unfold layer_norm_shape
    exact if_pos rfl
  unfold patch_embedding_shape
  rw [hp, Option.some_bind, hl, Option.some_bind, hn]

lemma patchify_count_lt (s H W : ℕ) (hH : 0 < H) (hW : 0 < W)
    (hnd : ¬ (s ∣ H ∧ s ∣ W)) :
    H / s * s * (W / s * s) < H * W := by
  have hA : H / s * s ≤ H := Nat.div_mul_le_self H s
  have hB : W / s * s ≤ W := Nat.div_mul_le_self W s
  have hstrict : H / s * s < H ∨ W / s * s < W := by
    by_contra hc
    push_neg at hc
    apply hnd
    have hcomm1 : s * (H / s) = H / s * s := Nat.mul_comm s (H / s)
    have hcomm2 : s * (W / s) = W / s * s := Nat.mul_comm s (W / s)
    obtain ⟨hc1, hc2⟩ := hc
    constructor
    · exact ⟨H / s, by omega⟩
    · exact ⟨W / s, by omega⟩
  rcases hstrict with hs | hs
  · calc H / s * s * (W / s * s) ≤ (H / s * s) * W :=
          Nat.mul_le_mul_left _ hB
      _ < H * W := (Nat.mul_lt_mul_right hW).mpr hs
  · calc H / s * s * (W / s * s) ≤ H * (W / s * s) :=
          Nat.mul_le_mul_right _ hA
      _ < H * W := (Nat.mul_lt_mul_left hH).mpr hs

lemma patch_embedding_shape_none (in_dim out_dim s b H W d : ℕ)
    (hb : 0 < b) (hH : 0 < H) (hW : 0 < W) (hd : 0 < d)
    (hnd : ¬ (s ∣ H ∧ s ∣ W)) :
    patch_embedding_shape in_dim out_dim s (b, H, W, d) = none := by
  have hp : patchify_shape s (b, H, W, d) = none := by
    unfold patchify_shape
    rcases Nat.eq_zero_or_pos s with rfl | hs
    · exact if_neg (by rintro ⟨h0, -⟩; exact h0 rfl)
    · have hlt := patchify_count_lt s H W hH hW hnd
      have hne : b * (H / s) * s * (W / s) * s * d ≠ b * H * W * d := by
        have e1 : b * (H / s) * s * (W / s) * s * d
            = (b * d) * (H / s * s * (W / s * s)) := by ring
        have e2 : b * H * W * d = (b * d) * (H * W) := by ring
        rw [e1, e2]
        exact Nat.ne_of_lt ((Nat.mul_lt_mul_left (by positivity)).mpr hlt)
      exact if_neg (by rintro ⟨-, heq, -⟩; exact hne heq)
  unfold patch_embedding_shape
  rw [hp, Option.none_bind, Option.none_bind]

/-- C6: for a `PatchEmbedding` whose configured input width matches the
input's channel dimension `d`, the forward pass fails (shape mismatch,
modelled as `none`) when the patch size `s` does not divide both spatial
dimensions, and succeeds with output spatial dimensions `H / s` and
`W / s` when it divides both. -/
theorem patch_embedding_divisibility (b H W d out_dim s : ℕ)
    (hb : 0 < b) (hH : 0 < H) (hW : 0 < W) (hd : 0 < d) :
    (¬ (s ∣ H ∧ s ∣ W) →
        patch_embedding_shape d out_dim s (b, H, W, d) = none) ∧
    ((s ∣ H) → (s ∣ W) →
        patch_embedding_shape d out_dim s (b, H, W, d)
          = some (b, H / s, W / s, out_dim)) := by
  constructor
  · exact patch_embedding_shape_none d out_dim s b H W d hb hH hW hd
  · intro h1 h2
    have hs : s ≠ 0 := by
      rintro rfl
      rw [Nat.zero_dvd] at h1
      omega
    have hHs : 0 < H / s := Nat.div_pos (Nat.le_of_dvd hH h1) (Nat.pos_of_ne_zero hs)
    have hWs : 0 < W / s := Nat.div_pos (Nat.le_of_dvd hW h2) (Nat.pos_of_ne_zero hs)
    exact patch_embedding_shape_some d out_dim s b H W h1 h2 hs (by positivity)

/-- Witness for the C6 theorem at input `(1, 8, 8, 3)` with patch size 4 and
output width 96: both directions evaluated at a concrete shape. -/
theorem patch_embedding_divisibility_witness :
    0 < 1 ∧ 0 < 8 ∧ 0 < 8 ∧ 0 < 3 ∧
    ((¬ ((4 : ℕ) ∣ 8 ∧ (4 : ℕ) ∣ 8) →
        patch_embedding_shape 3 96 4 (1, 8, 8, 3) = none) ∧
     ((4 : ℕ) ∣ 8 → (4 : ℕ) ∣ 8 →
        patch_embedding_shape 3 96 4 (1, 8, 8, 3) = some (1, 2, 2, 96))) :=
  ⟨by decide, by decide, by decide, by decide,
    patch_embedding_divisibility 1 8 8 3 96 4 (by decide) (by decide) (by decide)
      (by decide)⟩

lemma pos_index_in_range_seven : pos_index_in_range 7 = true := by decide

lemma attention_shape_some (dim n_head dim_head w b hh ww : ℕ)
    (hd1 : w ∣ hh) (hd2 : w ∣ ww) (hw : w ≠ 0) (hb : b ≠ 0)
    (hnh : n_head ≠ 0) (hdd : dim_head ≠ 0)
    (hcount : 49 * 49 * n_head = n_head * (w * w) * (w * w))
    (hrange : pos_index_in_range w = true) :
    multi_headed_local_attention_shape dim n_head dim_head w (b, hh, ww, dim)
      = some (b, hh, ww, dim) := by
  have hA : hh / w * w = hh := Nat.div_mul_cancel hd1
  have hB : ww / w * w = ww := Nat.div_mul_cancel hd2
  have heq : b * (hh / w) * w * (ww / w) * w * (n_head * dim_head)
      = b * hh * ww * (n_head * dim_head) := by
    calc b * (hh / w) * w * (ww / w) * w * (n_head * dim_head)
        = b * (hh / w * w) * (ww / w * w) * (n_head * dim_head) := by ring
      _ = b * hh * ww * (n_head * dim_head) := by rw [hA, hB]
  have hnz : b * n_head * (w * w) * dim_head ≠ 0 :=
    Nat.mul_ne_zero (Nat.mul_ne_zero (Nat.mul_ne_zero hb hnh)
      (Nat.mul_ne_zero hw hw)) hdd
  unfold multi_headed_local_attention_shape
  exact if_pos ⟨rfl, hw, heq, hnz, hcount, hrange⟩

lemma transformer_layer_shape_some (dim n_head dim_head dim_ff w b hh ww : ℕ)
    (hd1 : w ∣ hh) (hd2 : w ∣ ww) (hw : w ≠ 0) (hb : b ≠ 0)
    (hnh : n_head ≠ 0) (hdd : dim_head ≠ 0)
    (hcount : 49 * 49 * n_head = n_head * (w * w) * (w * w))
    (hrange : pos_index_in_range w = true) :
    transformer_layer_shape dim n_head dim_head dim_ff w (b, hh, ww, dim)
      = some (b, hh, ww, dim) := by
  have hattn := attention_shape_some dim n_head dim_head w b hh ww hd1 hd2 hw hb
    hnh hdd hcount hrange
  simp [transformer_layer_shape, layer_norm_shape, feed_forward_shape,
    linear_shape, hattn]

lemma foldlM_range_const {α : Type} (f : α → Option α) (e : α)
    (hf : f e = some e) (n : ℕ) :
    (List.range n).foldlM (fun s _ => f s) e = some e := by
  induction n with
  | zero => rfl
  | succ k ih =>
      rw [List.range_succ, List.foldlM_append, ih]
      simp [List.foldlM, hf]

lemma make_block_shape_some (depth in_dim dim n_head dim_head dim_ff w r b H W : ℕ)
    (hr1 : r ∣ H) (hr2 : r ∣ W) (hr : r ≠ 0)
    (hnz : b * (H / r) * (W / r) ≠ 0)
    (hw1 : w ∣ H / r) (hw2 : w ∣ W / r) (hw : w ≠ 0) (hb : b ≠ 0)
    (hnh : n_head ≠ 0) (hdd : dim_head ≠ 0)
    (hcount : 49 * 49 * n_head = n_head * (w * w) * (w * w))
    (hrange : pos_index_in_range w = true) :
    make_block_shape depth in_dim dim n_head dim_head dim_ff w r (b, H, W, in_dim)
      = some (b, H / r, W / r, dim) := by
  have hpe := patch_embedding_shape_some in_dim dim r b H W hr1 hr2 hr hnz
  have htl := transformer_layer_shape_some dim n_head dim_head dim_ff w b (H / r)
    (W / r) hw1 hw2 hw hb hnh hdd hcount hrange
  unfold make_block_shape
  rw [hpe, Option.some_bind]
  exact foldlM_range_const _ _ htl depth

/-- C8: for the configuration `image_size = (224, 224)`,
`depths = (2, 2, 6, 2)`, `dims = (96, 192, 384, 768)`, `window_size = 7`,
`n_class = 1000` (any positive head counts / head dimension, any
feed-forward widths) and any batch size `b ≥ 1`, the forward pass is
shape-correct with output `(b, 1000)`, and — the only NaN source the
design admits — every masked softmax row of every shifted layer keeps at
least one unmasked (finite) entry. -/
theorem swin224_forward_shape_and_softmax_safe
    (b nh1 nh2 nh3 nh4 dim_head dff1 dff2 dff3 dff4 : ℕ)
    (hb : 1 ≤ b) (h1 : 1 ≤ nh1) (h2 : 1 ≤ nh2) (h3 : 1 ≤ nh3) (h4 : 1 ≤ nh4)
    (hdh : 1 ≤ dim_head) :
    swin_transformer_shape
        (swin224_config (nh1, nh2, nh3, nh4) dim_head (dff1, dff2, dff3, dff4))
        (b, 3, 224, 224) = some (b, 1000) ∧
    (∀ h_stride w_stride s i, i < 7 * 7 →
        ∃ j, j < 7 * 7 ∧ appliedShiftMask 7 h_stride w_stride s i j = false) := by
  have hb0 : b ≠ 0 := by omega
  constructor
  · have hs1 := make_block_shape_some 2 3 96 nh1 dim_head dff1 7 4 b 224 224
      (by norm_num) (by norm_num) (by norm_num)
      (Nat.mul_ne_zero (Nat.mul_ne_zero hb0 (by norm_num)) (by norm_num))
      (by norm_num) (by norm_num) (by norm_num) hb0 (by omega) (by omega)
      (by ring) pos_index_in_range_seven
    have hs2 := make_block_shape_some 2 96 192 nh2 dim_head dff2 7 2 b 56 56
      (by norm_num) (by norm_num) (by norm_num)
      (Nat.mul_ne_zero (Nat.mul_ne_zero hb0 (by norm_num)) (by norm_num))
      (by norm_num) (by norm_num) (by norm_num) hb0 (by omega) (by omega)
      (by ring) pos_index_in_range_seven
    have hs3 := make_block_shape_some 6 192 384 nh3 dim_head dff3 7 2 b 28 28
      (by norm_num) (by norm_num) (by norm_num)
      (Nat.mul_ne_zero (Nat.mul_ne_zero hb0 (by norm_num)) (by norm_num))
      (by norm_num) (by norm_num) (by norm_num) hb0 (by omega) (by omega)
      (by ring) pos_index_in_range_seven
    have hs4 := make_block_shape_some 2 384 768 nh4 dim_head dff4 7 2 b 14 14
      (by norm_num) (by norm_num) (by norm_num)
      (Nat.mul_ne_zero (Nat.mul_ne_zero hb0 (by norm_num)) (by norm_num))
      (by norm_num) (by norm_num) (by norm_num) hb0 (by omega) (by omega)
      (by ring) pos_index_in_range_seven
    norm_num at hs1 hs2 hs3 hs4
    simp [swin_transformer_shape, swin224_config, hs1, hs2, hs3, hs4,
      layer_norm_shape, adaptive_avg_pool_shape, flatten_shape, linear2_shape]
  · intro h_stride w_stride s i hi
    exact ⟨i, hi, appliedShiftMask_diag 7 h_stride w_stride s i⟩

/-- Witness for the C8 theorem at batch 1 with the Swin-T head counts
`(3, 6, 12, 24)`, head dimension 32 and feed-forward widths
`(384, 768, 1536, 3072)`. -/
theorem swin224_forward_shape_and_softmax_safe_witness :
    1 ≤ 1 ∧
    (swin_transformer_shape
        (swin224_config (3, 6, 12, 24) 32 (384, 768, 1536, 3072))
        (1, 3, 224, 224) = some (1, 1000) ∧
     (∀ h_stride w_stride s i, i < 7 * 7 →
        ∃ j, j < 7 * 7 ∧ appliedShiftMask 7 h_stride w_stride s i j = false)) := by
  refine ⟨Nat.le_refl 1, ?_⟩
  exact swin224_forward_shape_and_softmax_safe 1 3 6 12 24 32 384 768 1536 3072
    (Nat.le_refl 1) (by decide) (by decide) (by decide) (by decide) (by decide)

/-- C7: cyclically rolling both spatial axes by `-⌊window_size / 2⌋` (the
shift at the start of a shifted attention forward) and then by
`+⌊window_size / 2⌋` (the shift at its end) reproduces the original
tensor exactly. -/
theorem roll_round_trip {h w : ℕ} {α : Type} (window_size : ℕ)
    (x : Fin h → Fin w → α) :
    torch_roll2 ((window_size : ℤ) / 2)
      (torch_roll2 (-((window_size : ℤ) / 2)) x) = x := by
  funext i j
  show x (roll_index h (-((window_size : ℤ) / 2))
      (roll_index h ((window_size : ℤ) / 2) i))
    (roll_index w (-((window_size : ℤ) / 2))
      (roll_index w ((window_size : ℤ) / 2) j)) = x i j
  rw [roll_index_cancel, roll_index_cancel]

end SwinVerify
